import Mathlib

/-!
Verification of the terminal-calendar core against its specification.

The Python sources under `src/terminal_calendar/` are shallowly embedded:
pure functions become Lean functions, `datetime.time` values become a
`Time` structure compared lexicographically, Python `int` becomes `ℤ`
(or `ℕ` for lengths/counts), Python `set[str]` becomes `Finset String`,
and Python `float` values (completion percentages) are modelled as exact
unreduced fractions (`PyFloat`) so that every definition is executable.
Ambient effects (`datetime.now()`) are passed as explicit arguments.
-/

namespace TerminalCalendar

/-- A time of day as produced by `Task.get_start_time` /
`Task.get_end_time` in `models.py` (a `datetime.time` with only hour and
minute components). -/
structure Time where
  hour : Nat
  minute : Nat
deriving DecidableEq, Repr

/-- Minute-of-day (`hour * 60 + minute`), the quantity used by
`duration_minutes`, `_tasks_overlap` and `validate_end_after_start`. -/
def Time.toMinutes (t : Time) : Nat := t.hour * 60 + t.minute

/-- Embeds `datetime.time` comparison `a <= b`: lexicographic on
(hour, minute). -/
def Time.leb (a b : Time) : Bool :=
  decide (a.hour < b.hour) || (decide (a.hour = b.hour) && decide (a.minute ≤ b.minute))

/-- Embeds `datetime.time` comparison `a < b`: lexicographic on
(hour, minute). -/
def Time.ltb (a b : Time) : Bool :=
  decide (a.hour < b.hour) || (decide (a.hour = b.hour) && decide (a.minute < b.minute))

/-- A time value in the range enforced by the `HH:MM` regex pattern on
`Task.start_time` / `Task.end_time` (`([0-1][0-9]|2[0-3]):[0-5][0-9]`). -/
def Time.Valid (t : Time) : Prop := t.hour ≤ 23 ∧ t.minute ≤ 59

instance (t : Time) : Decidable t.Valid := by unfold Time.Valid; infer_instance

/-- Split a character list at the first colon (the `s.split(":")` of a
well-formed `HH:MM` string). -/
def splitAtColon (cs : List Char) : List Char × List Char :=
  match cs with
  | [] => ([], [])
  | c :: rest =>
    if c = ':' then ([], rest)
    else
      let p := splitAtColon rest
      (c :: p.1, p.2)

/-- Decimal digits to a natural number (Python `int(...)` on a digit
string). -/
def digitsToNat (cs : List Char) : Nat :=
  cs.foldl (fun acc c => acc * 10 + (c.toNat - 48)) 0

/-- Embeds `hour, minute = map(int, s.split(":"))` for an `HH:MM` string. -/
def parseHHMM (s : String) : Time :=
  let p := splitAtColon s.toList
  ⟨digitsToNat p.1, digitsToNat p.2⟩

/-- Embeds `Task` from `models.py`. Times are kept in their `HH:MM` string form
exactly as the model stores them; `priority` is one of
"high"/"medium"/"low". -/
structure Task where
  id : String
  title : String
  start_time : String
  end_time : String
  description : String
  priority : String
deriving DecidableEq, Repr

/-- Embeds `Task.get_start_time`. -/
def Task.getStartTime (t : Task) : Time := parseHHMM t.start_time

/-- Embeds `Task.get_end_time`. -/
def Task.getEndTime (t : Task) : Time := parseHHMM t.end_time

/-- Embeds `Task.duration_minutes` (a Python `int`, so `ℤ`). -/
def Task.durationMinutes (t : Task) : ℤ :=
  (t.getEndTime.toMinutes : ℤ) - (t.getStartTime.toMinutes : ℤ)

/-- The constraints pydantic validation enforces on every constructed
`Task`: both time strings parse to in-range times (the regex pattern) and
`validate_end_after_start` accepted it (`end_minutes > start_minutes`). -/
def Task.WF (t : Task) : Prop :=
  t.getStartTime.Valid ∧ t.getEndTime.Valid ∧
    t.getStartTime.toMinutes < t.getEndTime.toMinutes

instance (t : Task) : Decidable t.WF := by unfold Task.WF; infer_instance

/-- The sort key order of `Schedule.sort_tasks_by_time`:
start time of `a` is at most start time of `b` under the `datetime.time`
comparison. -/
def Task.startLe (a b : Task) : Prop :=
  Time.leb a.getStartTime b.getStartTime = true

instance : DecidableRel Task.startLe := fun a b => by
  unfold Task.startLe; infer_instance

/-- Embeds `sorted(v, key=lambda t: t.get_start_time())` from
`Schedule.sort_tasks_by_time`. Python `sorted` is a stable sort; it is
modelled by Mathlib's stable insertion sort over the key order. -/
def sortTasksByTime (v : List Task) : List Task :=
  List.insertionSort Task.startLe v

/-- Embeds `Schedule.validate_unique_task_ids`: construction fails (pydantic
`ValueError`) when two tasks share an id. -/
def validateUniqueTaskIds (v : List Task) : Option (List Task) :=
  if (v.map Task.id).Nodup then some v else none

/-- A calendar date (`datetime.date`). -/
structure Date where
  year : Nat
  month : Nat
  day : Nat
deriving DecidableEq, Repr

/-- Embeds `Schedule` from `models.py`. -/
structure Schedule where
  date : Date
  tasks : List Task
deriving DecidableEq, Repr

/-- Pydantic construction of a `Schedule`: the field validators
`validate_unique_task_ids` and `sort_tasks_by_time` run, in declaration
order, on the incoming task list. -/
def Schedule.make (date : Date) (tasks : List Task) : Option Schedule :=
  match validateUniqueTaskIds tasks with
  | none => none
  | some v => some ⟨date, sortTasksByTime v⟩

/-- Embeds `Schedule.get_current_task(current_time)`: first task in list order
with `get_start_time() <= current_time < get_end_time()`. The `None`
default (wall clock) is passed explicitly. -/
def Schedule.getCurrentTask (s : Schedule) (current_time : Time) : Option Task :=
  s.tasks.find? fun task =>
    Time.leb task.getStartTime current_time && Time.ltb current_time task.getEndTime

/-- The half-open containment relation the specification describes: the
minute-of-day interval `[start, end)` of the task contains the query
time. -/
def Task.containsMin (task : Task) (t : Time) : Prop :=
  task.getStartTime.toMinutes ≤ t.toMinutes ∧
    t.toMinutes < task.getEndTime.toMinutes

instance (task : Task) (t : Time) : Decidable (task.containsMin t) := by
  unfold Task.containsMin; infer_instance

/-- A `datetime.datetime` value (to second precision, all the report
footer format uses). -/
structure DateTime where
  year : Nat
  month : Nat
  day : Nat
  hour : Nat
  minute : Nat
  second : Nat
deriving DecidableEq, Repr

/-- Embeds `TaskNote` from `models.py`. -/
structure TaskNote where
  timestamp : DateTime
  content : String
deriving DecidableEq, Repr

/-- Embeds `AppState` from `models.py`. `completed_tasks` is a Python
`set[str]`, embedded as a `Finset String`; `task_notes` is a dict from
task id to note list. -/
structure AppState where
  schedule_file : String
  schedule_date : Date
  completed_tasks : Finset String
  task_notes : List (String × List TaskNote)
  last_updated : DateTime
deriving DecidableEq

/-- Embeds `AppState.mark_complete`: add to the completed set and refresh
`last_updated` with the current wall-clock time (passed explicitly). -/
def AppState.markComplete (st : AppState) (task_id : String) (now : DateTime) : AppState :=
  { st with completed_tasks := insert task_id st.completed_tasks, last_updated := now }

/-- Embeds `AppState.mark_incomplete`: `set.discard` (no error when absent) and
refresh `last_updated`. -/
def AppState.markIncomplete (st : AppState) (task_id : String) (now : DateTime) : AppState :=
  { st with completed_tasks := st.completed_tasks.erase task_id, last_updated := now }

/-- A Python `float` produced by this code base's percentage arithmetic,
modelled as an exact unreduced fraction with positive denominator.  (All
floats here arise from dividing small integers, where binary rounding
never affects any compared or printed digit.) -/
structure PyFloat where
  num : ℤ
  den : ℤ
deriving DecidableEq, Repr

/-- Embed a nonnegative integer. -/
def PyFloat.ofNat (n : Nat) : PyFloat := ⟨n, 1⟩

/-- Float division. -/
def PyFloat.div (a b : PyFloat) : PyFloat :=
  if a.den * b.num < 0 then ⟨-(a.num * b.den), -(a.den * b.num)⟩
  else ⟨a.num * b.den, a.den * b.num⟩

/-- Float multiplication. -/
def PyFloat.mul (a b : PyFloat) : PyFloat := ⟨a.num * b.num, a.den * b.den⟩

/-- Float comparison `a <= b` (denominators positive). -/
def PyFloat.leb (a b : PyFloat) : Bool := decide (a.num * b.den ≤ b.num * a.den)

/-- The rational value of the fraction. -/
def PyFloat.toRat (a : PyFloat) : ℚ := (a.num : ℚ) / (a.den : ℚ)

/-- Embeds `AppState.get_completion_percentage(total_tasks)`: `0.0` when
`total_tasks == 0`, else `(len(completed_tasks) / total_tasks) * 100.0`.
No cross-check against any schedule is performed. -/
def AppState.getCompletionPercentage (st : AppState) (total_tasks : Nat) : PyFloat :=
  if total_tasks = 0 then PyFloat.ofNat 0
  else ((PyFloat.ofNat st.completed_tasks.card).div (PyFloat.ofNat total_tasks)).mul
    (PyFloat.ofNat 100)

/-! ### Report generation (`report_generator.py`)

`generate_report(schedule, state)` reads the ambient clock once, in its
footer line (`dt.datetime.now().strftime(...)`); that reading is passed
here as the explicit `now` argument.  Python string formatting helpers
(`str * n`, `:8`, `:.0f`, `:.1f`, `strftime`) are embedded below. -/

/-- An apostrophe (U+0027), built from its code point. -/
def apos : String := (Char.ofNat 39).toString

/-- Python `s * n` string repetition. -/
def strRepeat (s : String) (n : Nat) : String :=
  String.join (List.replicate n s)

/-- Python `str.upper()` (ASCII contents only here). -/
def pyUpper (s : String) : String := String.mk (s.toList.map Char.toUpper)

/-- The format spec `:8` on a string: left-justify, pad with spaces to
width 8. -/
def padTo8 (s : String) : String := s ++ strRepeat " " (8 - s.length)

/-- Two-digit zero padding, as in `strftime` `%d`, `%m`, `%H`, `%M`,
`%S`. -/
def pad2 (n : Nat) : String := if n < 10 then "0" ++ toString n else toString n

/-- Day-of-week of a Gregorian date, 0 = Sunday (Sakamoto's method),
backing `strftime` `%A`. -/
def Date.weekday (d : Date) : Nat :=
  let t := [0, 3, 2, 5, 0, 3, 5, 1, 4, 6, 2, 4]
  let y := if d.month < 3 then d.year - 1 else d.year
  (y + y / 4 + y / 400 + t.getD (d.month - 1) 0 + d.day - y / 100) % 7

/-- Embeds `strftime` `%A`. -/
def Date.dayName (d : Date) : String :=
  ["Sunday", "Monday", "Tuesday", "Wednesday", "Thursday", "Friday",
    "Saturday"].getD d.weekday ""

/-- Embeds `strftime` `%B`. -/
def Date.monthName (d : Date) : String :=
  ["January", "February", "March", "April", "May", "June", "July",
    "August", "September", "October", "November", "December"].getD (d.month - 1) ""

/-- Embeds `schedule.date.strftime("%A, %B %d, %Y")`. -/
def Date.formatLong (d : Date) : String :=
  d.dayName ++ ", " ++ d.monthName ++ " " ++ pad2 d.day ++ ", " ++ toString d.year

/-- Embeds `strftime("%Y-%m-%d %H:%M:%S")` on the footer timestamp. -/
def DateTime.format (n : DateTime) : String :=
  toString n.year ++ "-" ++ pad2 n.month ++ "-" ++ pad2 n.day ++ " " ++
    pad2 n.hour ++ ":" ++ pad2 n.minute ++ ":" ++ pad2 n.second

/-- Round a float to an integer number of tenths, ties to even (the
rounding of the format spec `:.1f`; denominators positive). -/
def PyFloat.round10 (a : PyFloat) : ℤ :=
  let n := a.num * 10
  let d := a.den
  let q := n.fdiv d
  let r := n - q * d
  if d < 2 * r then q + 1
  else if 2 * r < d then q
  else if q % 2 = 0 then q else q + 1

/-- Round a float to an integer, ties to even (the rounding of the
format spec `:.0f`). -/
def PyFloat.round1 (a : PyFloat) : ℤ :=
  let n := a.num
  let d := a.den
  let q := n.fdiv d
  let r := n - q * d
  if d < 2 * r then q + 1
  else if 2 * r < d then q
  else if q % 2 = 0 then q else q + 1

/-- The format spec `:.1f`. -/
def fmtDec1 (a : PyFloat) : String :=
  let r := a.round10
  if r < 0 then "-" ++ toString ((-r) / 10) ++ "." ++ toString ((-r) % 10)
  else toString (r / 10) ++ "." ++ toString (r % 10)

/-- The format spec `:.0f`. -/
def fmtDec0 (a : PyFloat) : String := toString a.round1

/-- The `duration_str` computed for each task block:
`f"{hours}h {mins}m" if hours > 0 else f"{mins}m"` with
`hours = duration // 60`, `mins = duration % 60`. -/
def durationStr (duration : ℤ) : String :=
  let hours := duration.fdiv 60
  let mins := duration.fmod 60
  if 0 < hours then toString hours ++ "h " ++ toString mins ++ "m"
  else toString mins ++ "m"

/-- The `priority_marker` dict lookup with default `""`. -/
def priorityMarker (p : String) : String :=
  if p = "high" then "!!!" else if p = "medium" then "!!"
  else if p = "low" then "!" else ""

/-- Embeds `priority_stats[p]["total"]`: how many tasks have priority `p`. -/
def priorityTotal (tasks : List Task) (p : String) : Nat :=
  (tasks.filter fun t => t.priority == p).length

/-- Embeds `priority_stats[p]["completed"]`: how many tasks of priority `p` are
in the completed set. -/
def priorityDone (tasks : List Task) (completed : Finset String) (p : String) : Nat :=
  (tasks.filter fun t => t.priority == p && decide (t.id ∈ completed)).length

/-- The lines the per-task loop appends for one task (used identically
for the completed list with marker `"✓"` and the incomplete list with
marker `"○"`): the header line, the truncated description line when the
description is non-empty, the duration line, and a blank line. -/
def taskBlock (marker : String) (task : Task) : List String :=
  ["  " ++ marker ++ " " ++ task.start_time ++ "-" ++ task.end_time ++ "  " ++
      task.title ++ " " ++ priorityMarker task.priority] ++
  (if task.description ≠ "" then ["    " ++ task.description.take 60 ++ "..."] else []) ++
  ["    Duration: " ++ durationStr task.durationMinutes, ""]

/-- The `PRIORITY BREAKDOWN` loop body: one line per priority bucket with
a non-zero total. -/
def priorityLines (tasks : List Task) (completed : Finset String) : List String :=
  ["high", "medium", "low"].filterMap fun p =>
    let total := priorityTotal tasks p
    let done := priorityDone tasks completed p
    if 0 < total then
      some (padTo8 (pyUpper p) ++ "  " ++ toString done ++ "/" ++ toString total ++
        " completed (" ++
        fmtDec0 (((PyFloat.ofNat done).div (PyFloat.ofNat total)).mul (PyFloat.ofNat 100)) ++
        "%)")
    else none

/-- The `COMPLETED TASKS` section (header plus task blocks, absent when
no task is completed). -/
def completedSection (tasks : List Task) (completed : Finset String) : List String :=
  let completed_task_list := tasks.filter fun t => decide (t.id ∈ completed)
  if completed_task_list.isEmpty then []
  else ["COMPLETED TASKS ✓", strRepeat "-" 70] ++
    (completed_task_list.map (taskBlock "✓")).flatten

/-- The `INCOMPLETE TASKS` section. -/
def incompleteSection (tasks : List Task) (completed : Finset String) : List String :=
  let incomplete_task_list := tasks.filter fun t => decide (t.id ∉ completed)
  if incomplete_task_list.isEmpty then []
  else ["INCOMPLETE TASKS ○", strRepeat "-" 70] ++
    (incomplete_task_list.map (taskBlock "○")).flatten

/-- The `insights` list: the completion band line, the
incomplete-high-priority warning, and the all-high-priority-done
celebration. -/
def insightList (tasks : List Task) (completed : Finset String)
    (completion_pct : PyFloat) : List String :=
  let band :=
    if (PyFloat.ofNat 80).leb completion_pct then
      "🎉 Excellent work! You completed most of your tasks today."
    else if (PyFloat.ofNat 60).leb completion_pct then
      "👍 Good progress! You" ++ apos ++ "re getting most things done."
    else if (PyFloat.ofNat 40).leb completion_pct then
      "📈 Fair progress. Consider breaking tasks into smaller chunks."
    else
      "💪 Challenging day. Focus on high-priority items first tomorrow."
  let incomplete_task_list := tasks.filter fun t => decide (t.id ∉ completed)
  let high_priority_incomplete := incomplete_task_list.filter fun t => t.priority == "high"
  let warn :=
    if high_priority_incomplete.isEmpty then []
    else ["⚠️  " ++ toString high_priority_incomplete.length ++
      " high-priority task(s) incomplete - consider these for tomorrow."]
  let high_priority_completed :=
    (tasks.filter fun t => t.priority == "high").all fun t => decide (t.id ∈ completed)
  let celebrate :=
    if high_priority_completed && decide (0 < priorityTotal tasks "high") then
      ["✨ All high-priority tasks completed!"]
    else []
  [band] ++ warn ++ celebrate

/-- The `report_lines` list built by `generate_report`, section by
section in source order. -/
def reportLines (schedule : Schedule) (state : AppState) (now : DateTime) : List String :=
  let total_tasks := schedule.tasks.length
  let completed_count := state.completed_tasks.card
  let incomplete_tasks : ℤ := (total_tasks : ℤ) - (completed_count : ℤ)
  let completion_pct := state.getCompletionPercentage total_tasks
  let total_time_minutes := (schedule.tasks.map Task.durationMinutes).sum
  let completed_time_minutes :=
    ((schedule.tasks.filter fun t => decide (t.id ∈ state.completed_tasks)).map
      Task.durationMinutes).sum
  [strRepeat "=" 70,
   "DAILY PRODUCTIVITY REPORT",
   "Date: " ++ schedule.date.formatLong,
   strRepeat "=" 70,
   "",
   "SUMMARY",
   strRepeat "-" 70,
   "Total Tasks:      " ++ toString total_tasks,
   "Completed:        " ++ toString completed_count ++ " (" ++ fmtDec1 completion_pct ++ "%)",
   "Incomplete:       " ++ toString incomplete_tasks,
   "",
   "TIME ANALYSIS",
   strRepeat "-" 70,
   "Total Scheduled:  " ++ toString (total_time_minutes.fdiv 60) ++ "h " ++
     toString (total_time_minutes.fmod 60) ++ "m",
   "Time Completed:   " ++ toString (completed_time_minutes.fdiv 60) ++ "h " ++
     toString (completed_time_minutes.fmod 60) ++ "m",
   "",
   "PRIORITY BREAKDOWN",
   strRepeat "-" 70] ++
  priorityLines schedule.tasks state.completed_tasks ++
  [""] ++
  completedSection schedule.tasks state.completed_tasks ++
  incompleteSection schedule.tasks state.completed_tasks ++
  ["INSIGHTS & RECOMMENDATIONS",
   strRepeat "-" 70] ++
  (insightList schedule.tasks state.completed_tasks completion_pct).map ("  " ++ ·) ++
  ["",
   strRepeat "=" 70,
   "Report generated: " ++ now.format,
   strRepeat "=" 70]

/-- Embeds `generate_report`: `"\n".join(report_lines)`. -/
def generateReport (schedule : Schedule) (state : AppState) (now : DateTime) : String :=
  String.intercalate "\n" (reportLines schedule state now)

/-! ### Validation (`validator.py`) -/

/-- Embeds `ValidationWarning` from `validator.py`. -/
structure ValidationWarning where
  type : String
  message : String
  tasks : List Task
  severity : String
deriving DecidableEq, Repr

/-- Embeds `_tasks_overlap`: `not (end1_mins <= start2_mins or end2_mins <=
start1_mins)` on minute-of-day values. -/
def tasksOverlap (task1 task2 : Task) : Bool :=
  let start1_mins := task1.getStartTime.toMinutes
  let end1_mins := task1.getEndTime.toMinutes
  let start2_mins := task2.getStartTime.toMinutes
  let end2_mins := task2.getEndTime.toMinutes
  !(decide (end1_mins ≤ start2_mins) || decide (end2_mins ≤ start1_mins))

/-- The message text of an overlap warning. -/
def overlapMessage (task1 task2 : Task) : String :=
  "Tasks overlap: " ++ apos ++ task1.title ++ apos ++ " (" ++ task1.start_time ++
    "-" ++ task1.end_time ++ ") and " ++ apos ++ task2.title ++ apos ++ " (" ++
    task2.start_time ++ "-" ++ task2.end_time ++ ")"

/-- The warning `_check_overlapping_tasks` appends for a pair. -/
def mkOverlapWarning (task1 task2 : Task) : ValidationWarning :=
  ⟨"overlap", overlapMessage task1 task2, [task1, task2], "error"⟩

/-- Embeds `_check_overlapping_tasks` on `schedule.tasks`: the nested loop
`for i, task1 in enumerate(tasks): for task2 in tasks[i+1:]` appending a
warning for each overlapping pair in scan order. -/
def checkOverlappingTasks : List Task → List ValidationWarning
  | [] => []
  | task1 :: rest =>
    (rest.filter (tasksOverlap task1)).map (mkOverlapWarning task1) ++
      checkOverlappingTasks rest

/-- All ordered-index pairs `(tasks[i], tasks[j])` with `i < j`, in the
scan order of `_check_overlapping_tasks`. -/
def taskPairs : List Task → List (Task × Task)
  | [] => []
  | t :: rest => rest.map (fun u => (t, u)) ++ taskPairs rest

/-- The specification's overlap notion: the half-open `[start, end)`
minute-of-day intervals of the two tasks intersect (some minute lies in
both). -/
def Intersects (task1 task2 : Task) : Prop :=
  ∃ m : Nat,
    (task1.getStartTime.toMinutes ≤ m ∧ m < task1.getEndTime.toMinutes) ∧
    (task2.getStartTime.toMinutes ≤ m ∧ m < task2.getEndTime.toMinutes)

/-! ### Trend analysis (`statistics.py`)

`analyze_productivity_trends` extracts one completion percentage per
report file into `daily_completions` (most recent first) and classifies
the trend from that list; only the classification step is claimed about,
so it is embedded as a function of the extracted list.  The Python float
percentages are modelled as exact rationals. -/

/-- The trend classification of `analyze_productivity_trends`
(lines 139-151): with at least 2 data points, compare
`sum(daily[:3]) / min(3, len(daily))` against
`sum(daily[3:]) / max(1, len(daily) - 3)` (the latter defaulting to the
former when there are at most 3 points). -/
def trendOf (daily_completions : List ℚ) : String :=
  if 2 ≤ daily_completions.length then
    let recent_avg := (daily_completions.take 3).sum /
      ((min 3 daily_completions.length : Nat) : ℚ)
    let older_avg :=
      if 3 < daily_completions.length then
        (daily_completions.drop 3).sum /
          ((max 1 (daily_completions.length - 3) : Nat) : ℚ)
      else recent_avg
    if older_avg + 5 < recent_avg then "improving"
    else if recent_avg < older_avg - 5 then "declining"
    else "stable"
  else "insufficient_data"

/-- The trend classification exactly as the claim words it: below 2
values "insufficient_data"; otherwise `recent` is the mean of the (up
to) 3 most-recent values and `older` is the mean of the remaining
values — the mean of an empty remainder is the junk value `0 / 0 = 0`
of rational division. -/
def claimTrendOf (daily : List ℚ) : String :=
  if daily.length < 2 then "insufficient_data"
  else
    let recent := (daily.take 3).sum / ((daily.take 3).length : ℚ)
    let older := (daily.drop 3).sum / ((daily.drop 3).length : ℚ)
    if older + 5 < recent then "improving"
    else if recent < older - 5 then "declining"
    else "stable"

/-- The amended trend claim: fewer than 2 values gives
"insufficient_data"; 2 or 3 values always give "stable" (the code sets
`older` equal to `recent` there); with more than 3 values, `recent` is
the mean of the 3 most-recent values, `older` the mean of the remaining
values, and the improving/declining thresholds are as claimed. -/
def amendedTrendOf (daily : List ℚ) : String :=
  if daily.length < 2 then "insufficient_data"
  else if daily.length ≤ 3 then "stable"
  else
    let recent := (daily.take 3).sum / ((daily.take 3).length : ℚ)
    let older := (daily.drop 3).sum / ((daily.drop 3).length : ℚ)
    if older + 5 < recent then "improving"
    else if recent < older - 5 then "declining"
    else "stable"

/-! ### State persistence (`state_manager.py`)

`StateManager.save_state` serializes the state and writes it with
`self.state_file.open("w")` followed by `json.dump(state_dict, f, ...)`:
opening with mode `"w"` truncates the file to empty in place, and the
dump then emits the serialized text left to right.  No temporary file or
rename is used.  The following definition models the observable on-disk
contents at the operation boundaries of one `save_state` call, given the
previous contents and the serialized new contents. -/

/-- Observable state-file contents during `save_state`: the old contents
(before `open("w")`), then — after the truncation — every prefix of the
new text as the write progresses, ending with the full new contents. -/
def saveStateObservables (oldContents newContents : String) : List String :=
  oldContents :: (List.range (newContents.length + 1)).map (fun k => newContents.take k)

/-- The claim's atomicity property for one `save_state` call: every
contents a concurrent or post-crash `load_state` could observe is either
the untouched old contents or the fully written new contents. -/
def AtomicSaveClaim (oldContents newContents : String) : Prop :=
  ∀ s ∈ saveStateObservables oldContents newContents,
    s = oldContents ∨ s = newContents

/-! ### Concrete instances used to exercise the theorems -/

/-- A sample date (2024-03-15 — a Friday). -/
def exDate : Date := ⟨2024, 3, 15⟩

/-- A sample wall-clock reading. -/
def exNow : DateTime := ⟨2024, 3, 15, 18, 0, 0⟩

/-- A task on 09:00-10:00. -/
def taskNine : Task := ⟨"t1", "First", "09:00", "10:00", "", "medium"⟩

/-- A task on 10:00-11:00, adjacent to `taskNine`. -/
def taskTen : Task := ⟨"t2", "Second", "10:00", "11:00", "", "medium"⟩

/-- A task on 09:30-10:30, overlapping `taskNine`. -/
def taskNineThirty : Task := ⟨"t3", "Third", "09:30", "10:30", "", "high"⟩

/-- A task with a short (5-character) non-empty description. -/
def taskShortDesc : Task := ⟨"t1", "Write", "09:00", "10:00", "short", "medium"⟩

/-- A schedule with two adjacent tasks. -/
def exSchedAdj : Schedule := ⟨exDate, [taskNine, taskTen]⟩

/-- A schedule with two overlapping tasks (sorted by start time). -/
def exSchedOverlap : Schedule := ⟨exDate, [taskNine, taskNineThirty]⟩

/-- A schedule with one task whose description is short. -/
def exSchedDesc : Schedule := ⟨exDate, [taskShortDesc]⟩

/-- A state with nothing completed. -/
def exStateEmpty : AppState := ⟨"test.json", exDate, ∅, [], exNow⟩

/-- A state whose completed set holds two ids that exist in no schedule
used here. -/
def exStateGhost : AppState := ⟨"test.json", exDate, {"ghost1", "ghost2"}, [], exNow⟩

/-! ### Bridging lemmas between the code's comparisons and minute-of-day
arithmetic -/

/-- For in-range minutes, the lexicographic `datetime.time` order agrees
with minute-of-day order. -/
theorem Time.leb_iff {a b : Time} (ha : a.minute ≤ 59) (hb : b.minute ≤ 59) :
    Time.leb a b = true ↔ a.toMinutes ≤ b.toMinutes := by
  simp only [Time.leb, Time.toMinutes, Bool.or_eq_true, Bool.and_eq_true,
    decide_eq_true_eq]
  omega

/-- Strict version of `Time.leb_iff`. -/
theorem Time.ltb_iff {a b : Time} (ha : a.minute ≤ 59) (hb : b.minute ≤ 59) :
    Time.ltb a b = true ↔ a.toMinutes < b.toMinutes := by
  simp only [Time.ltb, Time.toMinutes, Bool.or_eq_true, Bool.and_eq_true,
    decide_eq_true_eq]
  omega

/-- The boolean test of `get_current_task` decides exactly half-open
minute-of-day containment, for validated tasks and an in-range query
time. -/
theorem currentTest_iff (task : Task) (t : Time) (hw : task.WF) (ht : t.minute ≤ 59) :
    (Time.leb task.getStartTime t && Time.ltb t task.getEndTime) = true ↔
      task.containsMin t := by
  obtain ⟨⟨-, h1⟩, ⟨-, h2⟩, -⟩ := hw
  rw [Bool.and_eq_true, Time.leb_iff h1 ht, Time.ltb_iff ht h2]
  exact Iff.rfl

/-- Generic fact: `find?` returns the unique element satisfying the
predicate when there is exactly one. -/
theorem find?_eq_some_of_unique {α : Type} {p : α → Bool} {l : List α} {u : α}
    (hu : u ∈ l) (hpu : p u = true) (huniq : ∀ v ∈ l, p v = true → v = u) :
    l.find? p = some u := by
  induction l with
  | nil => cases hu
  | cons c rest ih =>
    by_cases hc : p c = true
    · rw [List.find?_cons_of_pos _ hc]
      exact congrArg some (huniq c (List.mem_cons_self c rest) hc)
    · rw [List.find?_cons_of_neg _ (by simpa using hc)]
      rcases List.mem_cons.mp hu with rfl | hu'
      · exact absurd hpu hc
      · exact ih hu' fun v hv hpv => huniq v (List.mem_cons_of_mem c hv) hpv

/-- Generic fact: in a `Pairwise r` list, the element `find?` returns is
`r`-below every other element satisfying the predicate. -/
theorem find?_min_of_pairwise {α : Type} {r : α → α → Prop} {p : α → Bool}
    {l : List α} {w : α} (hs : List.Pairwise r l) (hw : l.find? p = some w) :
    ∀ v ∈ l, p v = true → w = v ∨ r w v := by
  induction l with
  | nil => cases hw
  | cons c rest ih =>
    intro v hv hpv
    by_cases hc : p c = true
    · rw [List.find?_cons_of_pos _ hc] at hw
      obtain rfl : c = w := by injection hw
      rcases List.mem_cons.mp hv with rfl | hv'
      · exact Or.inl rfl
      · exact Or.inr ((List.pairwise_cons.mp hs).1 v hv')
    · rw [List.find?_cons_of_neg _ (by simpa using hc)] at hw
      rcases List.mem_cons.mp hv with rfl | hv'
      · exact absurd hpv hc
      · exact ih (List.pairwise_cons.mp hs).2 hw v hv' hpv

/-! ### C1 -/

/-- C1: for a schedule of validated tasks and an in-range query time `t`,
`get_current_task` returns none exactly when no task's half-open
`[start, end)` minute interval contains `t`; it returns the unique
containing task when there is exactly one; and at the shared boundary of
two adjacent tasks (first's end = second's start) the boundary time is
never contained in the first task but always in the second. -/
theorem getCurrentTask_unique_containment (s : Schedule) (t : Time)
    (hts : ∀ u ∈ s.tasks, u.WF) (ht : t.minute ≤ 59) :
    (s.getCurrentTask t = none ↔ ∀ u ∈ s.tasks, ¬ u.containsMin t) ∧
    (∀ u ∈ s.tasks, u.containsMin t →
      (∀ v ∈ s.tasks, v.containsMin t → v = u) → s.getCurrentTask t = some u) ∧
    (∀ t1 ∈ s.tasks, ∀ t2 ∈ s.tasks,
      t1.getEndTime = t2.getStartTime → t.toMinutes = t2.getStartTime.toMinutes →
      ¬ t1.containsMin t ∧ t2.containsMin t) := by
  refine ⟨?_, ?_, ?_⟩
  · rw [Schedule.getCurrentTask, List.find?_eq_none]
    constructor
    · intro h u hu hc
      exact h u hu ((currentTest_iff u t (hts u hu) ht).mpr hc)
    · intro h u hu hp
      exact h u hu ((currentTest_iff u t (hts u hu) ht).mp hp)
  · intro u hu hc huniq
    exact find?_eq_some_of_unique hu ((currentTest_iff u t (hts u hu) ht).mpr hc)
      fun v hv hpv => huniq v hv ((currentTest_iff v t (hts v hv) ht).mp hpv)
  · intro t1 h1 t2 h2 he hm
    have hb : t1.getEndTime.toMinutes = t2.getStartTime.toMinutes :=
      congrArg Time.toMinutes he
    refine ⟨fun hcon => ?_, ?_⟩
    · exact absurd hcon.2 (by omega)
    · exact ⟨le_of_eq hm.symm, by have := (hts t2 h2).2.2; omega⟩

/-- Witness for C1: in the schedule with tasks 09:00-10:00 and
10:00-11:00, a query at exactly 10:00 returns the second task. -/
theorem getCurrentTask_unique_containment_witness :
    exSchedAdj.getCurrentTask ⟨10, 0⟩ = some taskTen :=
  (getCurrentTask_unique_containment exSchedAdj ⟨10, 0⟩ (by decide) (by decide)).2.1
    taskTen (by decide) (by decide) (by decide)

/-! ### C10 -/

/-- C10: when at least one task of a sorted, validated schedule contains
the in-range query time `t`, `get_current_task` returns exactly one task,
a containing task whose start time is minimal among all containing
tasks (the first containing task in the sorted order). -/
theorem getCurrentTask_first_of_sorted (s : Schedule) (t : Time)
    (hts : ∀ u ∈ s.tasks, u.WF) (ht : t.minute ≤ 59)
    (hsorted : List.Sorted Task.startLe s.tasks)
    (hex : ∃ u ∈ s.tasks, u.containsMin t) :
    ∃ w, s.getCurrentTask t = some w ∧ w.containsMin t ∧
      ∀ v ∈ s.tasks, v.containsMin t →
        w.getStartTime.toMinutes ≤ v.getStartTime.toMinutes := by
  obtain ⟨u, hu, hc⟩ := hex
  have hw0 : (s.tasks.find? fun task =>
      Time.leb task.getStartTime t && Time.ltb t task.getEndTime).isSome :=
    List.find?_isSome.mpr ⟨u, hu, (currentTest_iff u t (hts u hu) ht).mpr hc⟩
  obtain ⟨w, hw⟩ := Option.isSome_iff_exists.mp hw0
  have hwmem : w ∈ s.tasks := List.mem_of_find?_eq_some hw
  have hp := List.find?_some hw
  refine ⟨w, hw, (currentTest_iff w t (hts w hwmem) ht).mp hp, ?_⟩
  intro v hv hvc
  rcases find?_min_of_pairwise hsorted hw v hv
      ((currentTest_iff v t (hts v hv) ht).mpr hvc) with rfl | hr
  · exact le_rfl
  · exact (Time.leb_iff (hts w hwmem).1.2 (hts v hv).1.2).mp hr

/-- Witness for C10: at 09:45 both tasks of the overlapping schedule
(09:00-10:00 and 09:30-10:30) contain the query, and the earliest-start
one is returned. -/
theorem getCurrentTask_first_of_sorted_witness :
    ∃ w, exSchedOverlap.getCurrentTask ⟨9, 45⟩ = some w ∧ w.containsMin ⟨9, 45⟩ ∧
      ∀ v ∈ exSchedOverlap.tasks, v.containsMin ⟨9, 45⟩ →
        w.getStartTime.toMinutes ≤ v.getStartTime.toMinutes :=
  getCurrentTask_first_of_sorted exSchedOverlap ⟨9, 45⟩ (by decide) (by decide)
    (by decide) (by decide)

/-! ### C6 -/

/-- C6: whenever pydantic construction of a schedule succeeds, the stored
task list is sorted ascending by start time, is a permutation of the
input task list (whatever its order), and the date is the given one.
The `Schedule` value is immutable, so the sorted order established at
construction is an invariant. -/
theorem schedule_make_sorted (date : Date) (tasks : List Task) (s : Schedule)
    (h : Schedule.make date tasks = some s) :
    List.Sorted Task.startLe s.tasks ∧ List.Perm s.tasks tasks ∧ s.date = date := by
  have htot : IsTotal Task Task.startLe :=
    ⟨by
      intro a b
      simp only [Task.startLe, Time.leb, Bool.or_eq_true, Bool.and_eq_true,
        decide_eq_true_eq]
      omega⟩
  have htrans : IsTrans Task Task.startLe :=
    ⟨by
      intro a b c
      simp only [Task.startLe, Time.leb, Bool.or_eq_true, Bool.and_eq_true,
        decide_eq_true_eq]
      omega⟩
  rw [Schedule.make, validateUniqueTaskIds] at h
  by_cases hn : (tasks.map Task.id).Nodup
  · rw [if_pos hn] at h
    obtain rfl : (⟨date, sortTasksByTime tasks⟩ : Schedule) = s := by injection h
    exact ⟨List.sorted_insertionSort Task.startLe tasks,
      List.perm_insertionSort Task.startLe tasks, rfl⟩
  · rw [if_neg hn] at h
    cases h

/-- Witness for C6: constructing a schedule from the input order
`[taskTen, taskNine]` yields the list sorted as `[taskNine, taskTen]`. -/
theorem schedule_make_sorted_witness :
    List.Sorted Task.startLe (Schedule.mk exDate [taskNine, taskTen]).tasks ∧
    List.Perm (Schedule.mk exDate [taskNine, taskTen]).tasks [taskTen, taskNine] ∧
    (Schedule.mk exDate [taskNine, taskTen]).date = exDate :=
  schedule_make_sorted exDate [taskTen, taskNine] _ (by decide)

/-! ### C8 -/

/-- C8: `mark_complete` and `mark_incomplete` are idempotent on the
completed set, and `mark_incomplete` of an id not in the completed set
leaves the set unchanged (and, being total, never errors).  The
wall-clock values used for `last_updated` are arbitrary and independent. -/
theorem mark_idempotent (st : AppState) (i : String) (n1 n2 : DateTime) :
    ((st.markComplete i n1).markComplete i n2).completed_tasks =
      (st.markComplete i n1).completed_tasks ∧
    ((st.markIncomplete i n1).markIncomplete i n2).completed_tasks =
      (st.markIncomplete i n1).completed_tasks ∧
    (i ∉ st.completed_tasks →
      (st.markIncomplete i n1).completed_tasks = st.completed_tasks) := by
  refine ⟨?_, ?_, ?_⟩
  · simp [AppState.markComplete]
  · simp [AppState.markIncomplete, Finset.erase_idem]
  · intro h
    simp [AppState.markIncomplete, Finset.erase_eq_of_not_mem h]

/-- Witness for C8, at a concrete state and id not in the completed
set. -/
theorem mark_idempotent_witness :
    ("x" ∉ exStateEmpty.completed_tasks) ∧
    (exStateEmpty.markIncomplete "x" exNow).completed_tasks =
      exStateEmpty.completed_tasks :=
  ⟨by decide, (mark_idempotent exStateEmpty "x" exNow exNow).2.2 (by decide)⟩

/-! ### C2 -/

/-- C2: the report text is a deterministic function of the schedule, the
state and the (single) wall-clock reading; moreover it depends on the
state only through the completed-task set — two states agreeing on
`completed_tasks` yield identical reports even when their other fields
differ. -/
theorem generateReport_deterministic :
    (∀ (s1 s2 : Schedule) (st1 st2 : AppState) (n1 n2 : DateTime),
      s1 = s2 → st1 = st2 → n1 = n2 →
      generateReport s1 st1 n1 = generateReport s2 st2 n2) ∧
    (∀ (sched : Schedule) (st1 st2 : AppState) (now : DateTime),
      st1.completed_tasks = st2.completed_tasks →
      generateReport sched st1 now = generateReport sched st2 now) := by
  constructor
  · rintro s1 s2 st1 st2 n1 n2 rfl rfl rfl
    rfl
  · rintro sched ⟨f1, d1, c1, tn1, lu1⟩ ⟨f2, d2, c2, tn2, lu2⟩ now h
    obtain rfl : c1 = c2 := h
    rfl

/-- Witness for C2 at concrete inputs. -/
theorem generateReport_deterministic_witness :
    generateReport exSchedDesc exStateEmpty exNow =
      generateReport exSchedDesc exStateEmpty exNow :=
  generateReport_deterministic.1 exSchedDesc exSchedDesc exStateEmpty exStateEmpty
    exNow exNow rfl rfl rfl

/-! ### C3 -/

/-- Helper: a completed task's description line belongs to the completed
section. -/
theorem mem_completedSection_desc {tasks : List Task} {completed : Finset String}
    {task : Task} (h1 : task ∈ tasks) (hmem : task.id ∈ completed)
    (hdesc : task.description ≠ "") :
    ("    " ++ task.description.take 60 ++ "...") ∈ completedSection tasks completed := by
  have hf : task ∈ tasks.filter fun t => decide (t.id ∈ completed) :=
    List.mem_filter.mpr ⟨h1, by simpa using hmem⟩
  simp only [completedSection]
  rw [if_neg (by simpa using List.ne_nil_of_mem hf)]
  refine List.mem_append_right _ ?_
  exact List.mem_flatten.mpr
    ⟨taskBlock "✓" task, List.mem_map_of_mem _ hf, by simp [taskBlock, hdesc]⟩

/-- Helper: an uncompleted task's description line belongs to the
incomplete section. -/
theorem mem_incompleteSection_desc {tasks : List Task} {completed : Finset String}
    {task : Task} (h1 : task ∈ tasks) (hmem : task.id ∉ completed)
    (hdesc : task.description ≠ "") :
    ("    " ++ task.description.take 60 ++ "...") ∈ incompleteSection tasks completed := by
  have hf : task ∈ tasks.filter fun t => decide (t.id ∉ completed) :=
    List.mem_filter.mpr ⟨h1, by simpa using hmem⟩
  simp only [incompleteSection]
  rw [if_neg (by simpa using List.ne_nil_of_mem hf)]
  refine List.mem_append_right _ ?_
  exact List.mem_flatten.mpr
    ⟨taskBlock "○" task, List.mem_map_of_mem _ hf, by simp [taskBlock, hdesc]⟩

/-- Helper: the task sections are sublists of the full report. -/
theorem mem_reportLines_of_section {x : String} (schedule : Schedule)
    (state : AppState) (now : DateTime)
    (h : x ∈ completedSection schedule.tasks state.completed_tasks ∨
      x ∈ incompleteSection schedule.tasks state.completed_tasks) :
    x ∈ reportLines schedule state now := by
  simp only [reportLines, List.mem_append]
  tauto

/-- C3 (amended): for every schedule, state, clock value and task of the
schedule with a non-empty description, the report renders the
description cut to 60 characters with `"..."` appended — also when the
description is 60 characters or fewer, since the code appends the
ellipsis to every non-empty description unconditionally. -/
theorem reportLines_description_always_ellipsis (schedule : Schedule)
    (state : AppState) (now : DateTime) (task : Task)
    (htask : task ∈ schedule.tasks) (hdesc : task.description ≠ "") :
    ("    " ++ task.description.take 60 ++ "...") ∈ reportLines schedule state now := by
  by_cases hmem : task.id ∈ state.completed_tasks
  · exact mem_reportLines_of_section schedule state now
      (Or.inl (mem_completedSection_desc htask hmem hdesc))
  · exact mem_reportLines_of_section schedule state now
      (Or.inr (mem_incompleteSection_desc htask hmem hdesc))

/-- Counterexample for C3 as stated: the report for a task whose
description is the 5-character string "short" contains the line with
`"..."` appended and does not contain the line rendering the description
in full without `"..."`. -/
theorem reportLines_short_description_counterexample :
    ("    short..." ∈ reportLines exSchedDesc exStateEmpty exNow) ∧
    ("    short" ∉ reportLines exSchedDesc exStateEmpty exNow) := by
  set_option maxRecDepth 4000 in decide

/-- Witness for the amended C3 at concrete inputs. -/
theorem reportLines_description_always_ellipsis_witness :
    (taskShortDesc ∈ exSchedDesc.tasks ∧ taskShortDesc.description ≠ "") ∧
    ("    " ++ taskShortDesc.description.take 60 ++ "...") ∈
      reportLines exSchedDesc exStateEmpty exNow :=
  ⟨⟨by decide, by decide⟩,
    reportLines_description_always_ellipsis exSchedDesc exStateEmpty exNow
      taskShortDesc (by decide) (by decide)⟩

/-! ### C9 -/

/-- C9: for positive `n`, `get_completion_percentage(n)` is exactly
`100 * |completed_tasks| / n` with no cross-check of the completed ids
against any schedule; concretely, with two completed ids absent from a
one-task schedule the percentage is 200 (> 100) and the report's
incomplete count line reads `-1`. -/
theorem getCompletionPercentage_no_crosscheck :
    (∀ (st : AppState) (n : Nat), 0 < n →
      (st.getCompletionPercentage n).toRat =
        100 * (st.completed_tasks.card : ℚ) / (n : ℚ)) ∧
    (exStateGhost.getCompletionPercentage exSchedDesc.tasks.length).toRat = 200 ∧
    ("Incomplete:       -1" ∈ reportLines exSchedDesc exStateGhost exNow) ∧
    (∀ g ∈ exStateGhost.completed_tasks, ∀ task ∈ exSchedDesc.tasks, task.id ≠ g) := by
  refine ⟨?_, ?_, by decide, by decide⟩
  · intro st n hn
    rw [AppState.getCompletionPercentage, if_neg hn.ne']
    simp only [PyFloat.div, PyFloat.ofNat, PyFloat.mul, PyFloat.toRat]
    rw [if_neg (by omega)]
    push_cast
    ring
  · have h : exStateGhost.getCompletionPercentage exSchedDesc.tasks.length =
        ⟨200, 1⟩ := by decide
    rw [h, PyFloat.toRat]
    norm_num

/-- Witness for C9's universal part at a concrete state and total. -/
theorem getCompletionPercentage_no_crosscheck_witness :
    (0 < 1) ∧
    (exStateGhost.getCompletionPercentage 1).toRat =
      100 * (exStateGhost.completed_tasks.card : ℚ) / (1 : ℚ) :=
  ⟨by decide, getCompletionPercentage_no_crosscheck.1 exStateGhost 1 (by decide)⟩

/-! ### C5 -/

/-- Helper: the pair scan produces exactly one warning per overlapping
index pair, in scan order. -/
theorem checkOverlappingTasks_eq (tasks : List Task) :
    checkOverlappingTasks tasks =
      ((taskPairs tasks).filter fun p => tasksOverlap p.1 p.2).map
        (fun p => mkOverlapWarning p.1 p.2) := by
  induction tasks with
  | nil => rfl
  | cons t rest ih =>
    simp only [checkOverlappingTasks, taskPairs, List.filter_append,
      List.map_append, ih]
    congr 1
    rw [List.filter_map, List.map_map]
    rfl

/-- Helper: both components of a scanned pair come from the task list. -/
theorem taskPairs_mem {p : Task × Task} {tasks : List Task}
    (h : p ∈ taskPairs tasks) : p.1 ∈ tasks ∧ p.2 ∈ tasks := by
  induction tasks with
  | nil => cases h
  | cons t rest ih =>
    simp only [taskPairs, List.mem_append, List.mem_map] at h
    rcases h with ⟨u, hu, rfl⟩ | h
    · exact ⟨List.mem_cons_self t rest, List.mem_cons_of_mem t hu⟩
    · obtain ⟨h1, h2⟩ := ih h
      exact ⟨List.mem_cons_of_mem t h1, List.mem_cons_of_mem t h2⟩

/-- Helper: for validated tasks, `_tasks_overlap` decides exactly
non-empty intersection of the half-open minute intervals. -/
theorem tasksOverlap_iff {t1 t2 : Task} (h1 : t1.WF) (h2 : t2.WF) :
    tasksOverlap t1 t2 = true ↔ Intersects t1 t2 := by
  obtain ⟨-, -, hw1⟩ := h1
  obtain ⟨-, -, hw2⟩ := h2
  simp only [tasksOverlap, Bool.not_eq_true', Bool.or_eq_false_iff,
    decide_eq_false_iff_not, not_le, Intersects]
  constructor
  · rintro ⟨hA, hB⟩
    exact ⟨max t1.getStartTime.toMinutes t2.getStartTime.toMinutes, by omega⟩
  · rintro ⟨m, ⟨hm1, hm2⟩, hm3, hm4⟩
    omega

/-- Helper: touching endpoints (one end equal to the other start) never
count as overlap, in either orientation. -/
theorem tasksOverlap_touching {t1 t2 : Task}
    (h : t1.getEndTime.toMinutes = t2.getStartTime.toMinutes) :
    tasksOverlap t1 t2 = false ∧ tasksOverlap t2 t1 = false := by
  constructor <;>
    · simp only [tasksOverlap, Bool.not_eq_false', Bool.or_eq_true,
        decide_eq_true_eq]
      omega

/-- C5: the overlap check emits exactly one warning per unordered pair of
tasks whose half-open `[start, end)` minute intervals intersect (the pair
scan visits every unordered pair once); each emitted warning has type
"overlap", severity "error" and references exactly the two tasks of an
intersecting pair; the boolean pair test agrees with interval
intersection on validated tasks; and a pair with touching endpoints is
never flagged. -/
theorem overlapCheck_exact_pairs (tasks : List Task) (hwf : ∀ u ∈ tasks, u.WF) :
    checkOverlappingTasks tasks =
      ((taskPairs tasks).filter fun p => tasksOverlap p.1 p.2).map
        (fun p => mkOverlapWarning p.1 p.2) ∧
    (∀ t1 ∈ tasks, ∀ t2 ∈ tasks, (tasksOverlap t1 t2 = true ↔ Intersects t1 t2)) ∧
    (∀ w ∈ checkOverlappingTasks tasks,
      w.type = "overlap" ∧ w.severity = "error" ∧
      ∃ p ∈ (taskPairs tasks).filter (fun p => tasksOverlap p.1 p.2),
        w.tasks = [p.1, p.2] ∧ Intersects p.1 p.2) ∧
    (∀ t1 t2 : Task, t1.getEndTime.toMinutes = t2.getStartTime.toMinutes →
      tasksOverlap t1 t2 = false ∧ tasksOverlap t2 t1 = false) := by
  refine ⟨checkOverlappingTasks_eq tasks,
    fun t1 h1 t2 h2 => tasksOverlap_iff (hwf t1 h1) (hwf t2 h2), ?_,
    fun t1 t2 h => tasksOverlap_touching h⟩
  intro w hw
  rw [checkOverlappingTasks_eq] at hw
  obtain ⟨p, hp, rfl⟩ := List.mem_map.mp hw
  have hpf := List.mem_filter.mp hp
  have hmem := taskPairs_mem hpf.1
  exact ⟨rfl, rfl, p, hp, rfl,
    (tasksOverlap_iff (hwf p.1 hmem.1) (hwf p.2 hmem.2)).mp hpf.2⟩

/-- The three-task list used to exercise the overlap check: 09:00-10:00,
09:30-10:30 (intersecting the first) and 10:00-11:00 (touching both). -/
def exOverlapTaskList : List Task := [taskNine, taskNineThirty, taskTen]

/-- Witness for C5 on the three-task list. -/
theorem overlapCheck_exact_pairs_witness :
    checkOverlappingTasks exOverlapTaskList =
      ((taskPairs exOverlapTaskList).filter fun p => tasksOverlap p.1 p.2).map
        (fun p => mkOverlapWarning p.1 p.2) ∧
    (∀ t1 ∈ exOverlapTaskList, ∀ t2 ∈ exOverlapTaskList,
      (tasksOverlap t1 t2 = true ↔ Intersects t1 t2)) ∧
    (∀ w ∈ checkOverlappingTasks exOverlapTaskList,
      w.type = "overlap" ∧ w.severity = "error" ∧
      ∃ p ∈ (taskPairs exOverlapTaskList).filter (fun p => tasksOverlap p.1 p.2),
        w.tasks = [p.1, p.2] ∧ Intersects p.1 p.2) ∧
    (∀ t1 t2 : Task, t1.getEndTime.toMinutes = t2.getStartTime.toMinutes →
      tasksOverlap t1 t2 = false ∧ tasksOverlap t2 t1 = false) :=
  overlapCheck_exact_pairs exOverlapTaskList (by decide)

/-! ### C7 -/

/-- Counterexample for C7 as stated: on two data points (both 100%) the
code reports "stable" while the claim's classification (mean of the 3
most-recent against mean of the — here empty — remainder) yields
"improving". -/
theorem trendOf_counterexample :
    trendOf [100, 100] = "stable" ∧ claimTrendOf [100, 100] = "improving" := by
  constructor <;> norm_num [trendOf, claimTrendOf]

/-- C7 (amended): the code's trend equals the claimed classification
except with 2 or 3 data points, where the code compares the recent mean
against itself and therefore always reports "stable". -/
theorem trendOf_eq_amended (daily : List ℚ) : trendOf daily = amendedTrendOf daily := by
  have noUp : ∀ x : ℚ, ¬ (x + 5 < x) := fun x => by linarith
  have noDown : ∀ x : ℚ, ¬ (x < x - 5) := fun x => by linarith
  rcases lt_or_le daily.length 2 with h | h2
  · have hn : ¬ 2 ≤ daily.length := by omega
    simp only [trendOf, amendedTrendOf]
    rw [if_neg hn, if_pos h]
  · rcases le_or_lt daily.length 3 with h3 | h3
    · have hn2 : ¬ daily.length < 2 := by omega
      have hn3 : ¬ 3 < daily.length := by omega
      simp only [trendOf, amendedTrendOf]
      rw [if_pos h2, if_neg hn3, if_neg hn2, if_pos h3,
        if_neg (noUp _), if_neg (noDown _)]
    · have hn2 : ¬ daily.length < 2 := by omega
      have hn3 : ¬ daily.length ≤ 3 := by omega
      have e1 : (((daily.take 3).length : Nat) : ℚ) =
          ((min 3 daily.length : Nat) : ℚ) := by
        rw [List.length_take]
      have e2 : (((daily.drop 3).length : Nat) : ℚ) =
          ((max 1 (daily.length - 3) : Nat) : ℚ) := by
        rw [List.length_drop]
        congr 1
        omega
      simp only [trendOf, amendedTrendOf]
      rw [if_pos h2, if_pos h3, if_neg hn2, if_neg hn3, e1, e2]

/-! ### C4 -/

/-- Counterexample for C4 as stated: during a save that replaces contents
"OLD" by "NEW", the empty string (the file just after the `open("w")`
truncation) is observable and is neither the old nor the new contents;
`save_state` is not atomic. -/
theorem saveState_not_atomic_counterexample : ¬ AtomicSaveClaim "OLD" "NEW" :=
  fun h => by
    rcases h "" (by decide) with h' | h' <;> exact absurd h' (by decide)

/-- C4 (amended): every contents observable during `save_state` is either
the untouched old contents or some prefix (possibly empty, possibly
proper) of the new contents — an interrupted save can leave a truncated
or half-written state file, which a subsequent `load_state` rejects with
`StateManagerError` instead of reading the old state. -/
theorem saveState_observable_prefix (oldContents newContents : String) :
    ∀ s ∈ saveStateObservables oldContents newContents,
      s = oldContents ∨ ∃ k, k ≤ newContents.length ∧ s = newContents.take k := by
  intro s hs
  rcases List.mem_cons.mp hs with rfl | hs'
  · exact Or.inl rfl
  · obtain ⟨k, hk, rfl⟩ := List.mem_map.mp hs'
    exact Or.inr ⟨k, Nat.lt_succ_iff.mp (List.mem_range.mp hk), rfl⟩

/-- Witness for the amended C4 at the concrete observable "" during a
save of "NEW" over "OLD". -/
theorem saveState_observable_prefix_witness :
    ("" ∈ saveStateObservables "OLD" "NEW") ∧
    ("" = "OLD" ∨ ∃ k, k ≤ "NEW".length ∧ "" = "NEW".take k) :=
  ⟨by decide, saveState_observable_prefix "OLD" "NEW" "" (by decide)⟩

end TerminalCalendar
